import Mathlib

/-!
Formal model of the weather ingestion pipeline in
`weather_pipeline_secure.py`: configuration loading at module import,
the fetch and transform stages of `main`, and the SCD Type-2 upsert
(`upsert_weather_scd_type2`) against the `calgary_weather_data` table.

Modelling conventions:
* `DECIMAL(5,2)` columns and Python floats are modelled as exact
  rationals (`ℚ`); precision limits and overflow of the column type are
  outside the model.
* SQL `TIMESTAMP` values produced by `NOW()` are modelled as natural
  numbers; each call to `upsert_weather_scd_type2` runs in its own
  transaction, so `main`'s loop gives successive calls successive
  timestamps.
* The JSONB column `weather_info` holds `json.dumps` of the dict
  `{"weather": w, "description": d}`; since `json.dumps` is injective on
  such dicts the column is modelled as the pair `(w, d)`.
* The `UNIQUE(datetime, valid_from)` constraint of the table aborts the
  whole transaction on violation, hence the upsert returns `Except`.
* The `id SERIAL` surrogate column plays no role in any query and is
  omitted.
-/

namespace WeatherPipeline

/-- One persisted row of `calgary_weather_data` (columns in the order of
`create_weather_table`, without the surrogate `id`). -/
structure Row where
  datetime : String
  temperature : ℚ
  conv_temp : ℚ
  weather_info : String × String
  valid_from : Nat
  valid_to : Option Nat
  is_current : Bool
deriving DecidableEq, Repr

/-- One transformed record, as built by `parse_list` and as passed to
`upsert_weather_scd_type2` as the `new_data` parameter dict. -/
structure Record where
  datetime : String
  temperature : ℚ
  weather_info : String × String
  conv_temp : ℚ
deriving DecidableEq, Repr

/-- The `WHERE` clause of the `expire_query` `UPDATE`: the row is the
current row for the incoming key and at least one tracked field
differs. -/
def expireCond (nd : Record) (r : Row) : Prop :=
  r.datetime = nd.datetime ∧ r.is_current = true ∧
    (r.temperature ≠ nd.temperature ∨ r.conv_temp ≠ nd.conv_temp ∨
      r.weather_info ≠ nd.weather_info)

instance expireCond.dec (nd : Record) (r : Row) : Decidable (expireCond nd r) :=
  inferInstanceAs (Decidable (_ ∧ _ ∧ (_ ∨ _ ∨ _)))

/-- The effect of the `expire_query` `UPDATE` on a single row: rows
matching the `WHERE` clause get `valid_to = NOW(), is_current = FALSE`,
all other rows are untouched. -/
def expireRow (now : Nat) (nd : Record) (r : Row) : Row :=
  if expireCond nd r then { r with valid_to := some now, is_current := false }
  else r

/-- The `NOT EXISTS` subquery of the `insert_query`: a current row whose
tracked fields all equal the incoming record. -/
def matchesCurrent (nd : Record) (r : Row) : Prop :=
  r.datetime = nd.datetime ∧ r.temperature = nd.temperature ∧
    r.conv_temp = nd.conv_temp ∧ r.weather_info = nd.weather_info ∧
    r.is_current = true

instance matchesCurrent.dec (nd : Record) (r : Row) : Decidable (matchesCurrent nd r) :=
  inferInstanceAs (Decidable (_ ∧ _ ∧ _ ∧ _ ∧ _))

/-- The row inserted by the `insert_query`:
`(:datetime, :temperature, :conv_temp, :weather_info, NOW(), NULL, TRUE)`. -/
def newRow (now : Nat) (nd : Record) : Row :=
  ⟨nd.datetime, nd.temperature, nd.conv_temp, nd.weather_info, now, none, true⟩

/-- `upsert_weather_scd_type2(engine, new_data)`: one transaction
(`engine.begin()`) running the expire `UPDATE` followed by the
conditional `INSERT`.  The `INSERT` sees the updated rows (same
transaction).  If the inserted row would violate
`UNIQUE(datetime, valid_from)` the transaction aborts and no change is
persisted. -/
def upsert_weather_scd_type2 (now : Nat) (nd : Record) (tbl : List Row) :
    Except String (List Row) :=
  let expired := tbl.map (expireRow now nd)
  if ∃ r ∈ expired, matchesCurrent nd r then
    .ok expired
  else if ∃ r ∈ expired, r.datetime = nd.datetime ∧ r.valid_from = now then
    .error "duplicate key value violates unique constraint"
  else
    .ok (expired ++ [newRow now nd])

/-- The per-row loop of `main` step 4: each DataFrame row becomes a
`new_data` dict and is reconciled in its own transaction; transaction
timestamps strictly increase along the loop.  A database error aborts
the remaining batch (the `try`/`except` around the loop); already
committed transactions stand. -/
def runBatch (now : Nat) (batch : List Record) (tbl : List Row) :
    Except String (List Row) :=
  match batch with
  | [] => .ok tbl
  | nd :: rest =>
    match upsert_weather_scd_type2 now nd tbl with
    | .error e => .error e
    | .ok tbl' => runBatch (now + 1) rest tbl'

/-- All rows whose `datetime` equals `k`. -/
def rowsFor (k : String) (tbl : List Row) : List Row :=
  tbl.filter (fun r => decide (r.datetime = k))

/-- All rows whose `datetime` equals `k` and which are current. -/
def currentRowsFor (k : String) (tbl : List Row) : List Row :=
  tbl.filter (fun r => decide (r.datetime = k) && r.is_current)

/-- The §3 invariant: at most one current row per `datetime` key. -/
def atMostOneCurrent (tbl : List Row) : Prop :=
  ∀ k : String, (currentRowsFor k tbl).length ≤ 1

/-- `tbl` can evolve to `tbl'` by a sequence of successful
reconciliations. -/
inductive Evolves : List Row → List Row → Prop where
  | refl (tbl : List Row) : Evolves tbl tbl
  | step {tbl tbl' tbl'' : List Row} {now : Nat} {nd : Record} :
      Evolves tbl tbl' →
      upsert_weather_scd_type2 now nd tbl' = .ok tbl'' →
      Evolves tbl tbl''

/-- States reachable from the empty table just created by
`create_weather_table`. -/
def Reachable (tbl : List Row) : Prop := Evolves [] tbl

/-! ### Transform stage: `parse_list` -/

/-- One entry of the provider response's `list` field: `dt_txt`,
`main.temp`, and the first element of `weather` (its `main` and
`description` fields). -/
structure RawItem where
  dt_txt : String
  temp : ℚ
  weather_main : String
  weather_description : String
deriving DecidableEq, Repr

/-- Python's `round(x, 2)`: round to 2 decimal places, ties to the even
hundredth (banker's rounding), modelled over exact rationals. -/
def pyRound2 (x : ℚ) : ℚ :=
  let y := x * 100
  let f : ℤ := ⌊y⌋
  let frac := y - (f : ℚ)
  let n : ℤ :=
    if frac < 1/2 then f
    else if 1/2 < frac then f + 1
    else if f % 2 = 0 then f else f + 1
  (n : ℚ) / 100

/-- `parse_list(response)`: one output dict per entry of
`response['list']`, with `conv_temp = round(temp - 273.15, 2)` and
`weather_info = json.dumps({"weather": ..., "description": ...})`. -/
def parse_list (response : List RawItem) : List Record :=
  response.map fun item =>
    let conv_temp := item.temp - 273.15
    { datetime := item.dt_txt
      temperature := item.temp
      weather_info := (item.weather_main, item.weather_description)
      conv_temp := pyRound2 conv_temp }

/-! ### Configuration loading (module level, lines 19-33) -/

/-- The environment variables the script reads. `none` models an unset
variable. -/
structure Env where
  OPENWEATHER_API_KEY : Option String
  CITY : Option String
  DB_USERNAME : Option String
  DB_PASSWORD : Option String
  DB_HOST : Option String
  DB_PORT : Option String
  DB_NAME : Option String
deriving DecidableEq, Repr

/-- The configuration the module holds after a successful import. -/
structure Config where
  API_KEY : String
  CITY : String
  DB_USERNAME : String
  DB_PASSWORD : String
  DB_HOST : String
  DB_PORT : String
  DB_NAME : String
deriving DecidableEq, Repr

/-- Python truthiness test `not v` for an optional string: true for an
unset variable and for the empty string. -/
def isBlank : Option String → Bool
  | none => true
  | some s => s.isEmpty

/-- Module-level configuration loading: `os.getenv` with the script's
defaults, then the two `raise ValueError` guards, in source order.  Only
`OPENWEATHER_API_KEY` and `DB_PASSWORD` are validated; every other value
falls back to a default. -/
def loadConfig (env : Env) : Except String Config :=
  if isBlank env.OPENWEATHER_API_KEY then
    .error "OPENWEATHER_API_KEY environment variable is required"
  else if isBlank env.DB_PASSWORD then
    .error "DB_PASSWORD environment variable is required"
  else
    .ok
      { API_KEY := env.OPENWEATHER_API_KEY.getD ""
        CITY := env.CITY.getD "Calgary"
        DB_USERNAME := env.DB_USERNAME.getD "postgres"
        DB_PASSWORD := env.DB_PASSWORD.getD ""
        DB_HOST := env.DB_HOST.getD "localhost"
        DB_PORT := env.DB_PORT.getD "5432"
        DB_NAME := env.DB_NAME.getD "ben" }

/-! ### The `main` pipeline as an effect trace -/

/-- `cnt = 240` (240 hours), a module constant, not configuration. -/
def cnt : Nat := 240

def baseurl : String := "http://api.openweathermap.org/data/2.5/forecast?q="

def endpoint (cfg : Config) : String :=
  cfg.CITY ++ "&cnt=" ++ toString cnt ++ "&appid=" ++ cfg.API_KEY

/-- The URL built in `main` (line 138); `main_request(baseurl, endpoint)`
concatenates the very same two pieces, so both requests hit this URL. -/
def forecastUrl (cfg : Config) : String := baseurl ++ endpoint cfg

/-- Externally observable side effects of one run. -/
inductive Event where
  | httpGet (url : String)
  | csvWrite (file : String) (rows : List Record) (valid_from : Nat)
  | dbCreateTable
  | dbUpsert (rec : Record)
  | dbCountCurrent
deriving DecidableEq, Repr

inductive RunResult where
  | fetchFailed (status : Nat)
  | dbError
  | success
deriving DecidableEq, Repr

/-- The world `main` runs against: the provider's HTTP status and
payload (`response['list']`), the wall-clock instant used for the CSV's
`valid_from` column, and — if set — the index of the first database
operation that raises. -/
structure World where
  status_code : Nat
  body : List RawItem
  now : Nat
  dbFail : Option Nat
deriving DecidableEq, Repr

/-- `main_request(baseurl, endpoint)`: one `requests.get` on the
concatenated URL, returning the parsed JSON payload. -/
def main_request (url : String) (w : World) : List Event × List RawItem :=
  ([Event.httpGet url], w.body)

/-- The database operations of `main` step 4/5 in order: create the
table, one upsert transaction per record, then the verification
`SELECT COUNT(*)`. -/
def dbOps (records : List Record) : List Event :=
  Event.dbCreateTable :: (records.map Event.dbUpsert ++ [Event.dbCountCurrent])

/-- The `try`/`except` around `main` step 4/5: the database operations
run in order; an exception at operation `i` stops the run with a
database error, the operations already performed standing. -/
def dbStage (ops : List Event) : Option Nat → List Event × RunResult
  | some i =>
    if i < ops.length then (ops.take i, RunResult.dbError)
    else (ops, RunResult.success)
  | none => (ops, RunResult.success)

/-- `main()` as a trace of side effects plus an outcome.  Control flow of
the source: a first `requests.get(url)`; on a non-200 status the run
stops; otherwise `main_request` issues a second identical request, the
payload is transformed, written to `weather_forecast_json.csv`, and then
the database steps run inside `try`/`except`; nothing removes the CSV
file afterwards. -/
def mainRun (cfg : Config) (w : World) : List Event × RunResult :=
  let url := forecastUrl cfg
  if w.status_code = 200 then
    let mr := main_request url w
    let records := parse_list mr.2
    let pre := [Event.httpGet url] ++ mr.1 ++
      [Event.csvWrite "weather_forecast_json.csv" records w.now]
    let db := dbStage (dbOps records) w.dbFail
    (pre ++ db.1, db.2)
  else
    ([Event.httpGet url], RunResult.fetchFailed w.status_code)

inductive ScriptResult where
  | configError (msg : String)
  | ran (r : RunResult)
deriving DecidableEq, Repr

/-- The whole script: module import validates the configuration (and a
`ValueError` there aborts before `main` ever runs — no fetch, no store
write), then `main()` executes. -/
def script (env : Env) (w : World) : List Event × ScriptResult :=
  match loadConfig env with
  | .error e => ([], .configError e)
  | .ok cfg =>
    let (tr, res) := mainRun cfg w
    (tr, .ran res)

/-- Number of outbound calls to a given URL in a trace. -/
def countGets (tr : List Event) (url : String) : Nat :=
  tr.count (Event.httpGet url)

/-! ### Basic facts about the expire `UPDATE` -/

theorem expireRow_datetime (now : Nat) (nd : Record) (r : Row) :
    (expireRow now nd r).datetime = r.datetime := by
  unfold expireRow; split <;> rfl

theorem expireRow_valid_from (now : Nat) (nd : Record) (r : Row) :
    (expireRow now nd r).valid_from = r.valid_from := by
  unfold expireRow; split <;> rfl

theorem expireRow_temperature (now : Nat) (nd : Record) (r : Row) :
    (expireRow now nd r).temperature = r.temperature := by
  unfold expireRow; split <;> rfl

theorem expireRow_conv_temp (now : Nat) (nd : Record) (r : Row) :
    (expireRow now nd r).conv_temp = r.conv_temp := by
  unfold expireRow; split <;> rfl

theorem expireRow_weather_info (now : Nat) (nd : Record) (r : Row) :
    (expireRow now nd r).weather_info = r.weather_info := by
  unfold expireRow; split <;> rfl

theorem expireRow_current (now : Nat) (nd : Record) (r : Row)
    (h : (expireRow now nd r).is_current = true) : r.is_current = true := by
  unfold expireRow at h
  split at h
  · exact absurd h (by simp)
  · exact h

theorem expireRow_of_not_cond {now : Nat} {nd : Record} {r : Row}
    (h : ¬ expireCond nd r) : expireRow now nd r = r := by
  unfold expireRow; exact if_neg h

theorem expireRow_of_other_key {now : Nat} {nd : Record} {r : Row}
    (h : r.datetime ≠ nd.datetime) : expireRow now nd r = r :=
  expireRow_of_not_cond (fun hc => h hc.1)

theorem expireRow_of_not_current {now : Nat} {nd : Record} {r : Row}
    (h : r.is_current = false) : expireRow now nd r = r :=
  expireRow_of_not_cond (fun hc => by rw [hc.2.1] at h; exact Bool.noConfusion h)

/-- After the expire `UPDATE`, a row that is still current for the
incoming key agrees with the incoming record on every tracked field:
rows that disagreed have just been expired. -/
theorem expireRow_matches {now : Nat} {nd : Record} {r : Row}
    (hk : (expireRow now nd r).datetime = nd.datetime)
    (hc : (expireRow now nd r).is_current = true) :
    matchesCurrent nd (expireRow now nd r) := by
  by_cases hcond : expireCond nd r
  · have hfalse : (expireRow now nd r).is_current = false := by
      unfold expireRow; rw [if_pos hcond]
    rw [hfalse] at hc
    exact Bool.noConfusion hc
  · rw [expireRow_of_not_cond hcond] at hk hc ⊢
    refine ⟨hk, ?_, ?_, ?_, hc⟩ <;> by_contra hne <;> exact hcond ⟨hk, hc, by tauto⟩

/-! ### The two success shapes of the upsert transaction -/

theorem upsert_ok_cases {now : Nat} {nd : Record} {tbl tbl' : List Row}
    (h : upsert_weather_scd_type2 now nd tbl = .ok tbl') :
    (tbl' = tbl.map (expireRow now nd) ∧
      ∃ r ∈ tbl.map (expireRow now nd), matchesCurrent nd r) ∨
    (tbl' = tbl.map (expireRow now nd) ++ [newRow now nd] ∧
      ¬ ∃ r ∈ tbl.map (expireRow now nd), matchesCurrent nd r) := by
  simp only [upsert_weather_scd_type2] at h
  split at h
  · next hm => exact Or.inl ⟨(Except.ok.injEq _ _).mp h.symm, hm⟩
  · next hm =>
      split at h
      · cases h
      · exact Or.inr ⟨(Except.ok.injEq _ _).mp h.symm, hm⟩

theorem upsert_eq_of_match {now : Nat} {nd : Record} {tbl : List Row}
    (hm : ∃ r ∈ tbl.map (expireRow now nd), matchesCurrent nd r) :
    upsert_weather_scd_type2 now nd tbl = .ok (tbl.map (expireRow now nd)) := by
  unfold upsert_weather_scd_type2
  exact if_pos hm

theorem upsert_eq_of_no_match {now : Nat} {nd : Record} {tbl : List Row}
    (hm : ¬ ∃ r ∈ tbl.map (expireRow now nd), matchesCurrent nd r)
    (hu : ¬ ∃ r ∈ tbl.map (expireRow now nd),
      r.datetime = nd.datetime ∧ r.valid_from = now) :
    upsert_weather_scd_type2 now nd tbl =
      .ok (tbl.map (expireRow now nd) ++ [newRow now nd]) := by
  unfold upsert_weather_scd_type2
  rw [if_neg hm, if_neg hu]

/-! ### Counting current rows -/

/-- Filtering commutes with a row transformation that fixes the rows the
filter keeps and never makes a row enter the filter. -/
theorem filter_map_of_fix (f : Row → Row) (p : Row → Bool) :
    ∀ tbl : List Row,
      (∀ r ∈ tbl, if p r = true then f r = r else p (f r) = false) →
      (tbl.map f).filter p = tbl.filter p := by
  intro tbl
  induction tbl with
  | nil => intro _; rfl
  | cons r t ih =>
      intro h
      have hr := h r (List.mem_cons_self r t)
      have ht := ih (fun x hx => h x (List.mem_cons_of_mem r hx))
      by_cases hp : p r = true
      · rw [if_pos hp] at hr
        simp only [List.map_cons, List.filter_cons, hr, hp, if_pos, ht]
      · rw [if_neg hp] at hr
        simp only [List.map_cons, List.filter_cons, hr,
          Bool.not_eq_true _ ▸ hp, ht]
        simp only [Bool.not_eq_true] at hp
        simp [hp, hr, ht]

theorem currentRowsFor_map_expire_le (now : Nat) (nd : Record) (k : String)
    (tbl : List Row) :
    (currentRowsFor k (tbl.map (expireRow now nd))).length ≤
      (currentRowsFor k tbl).length := by
  unfold currentRowsFor
  rw [← List.countP_eq_length_filter, ← List.countP_eq_length_filter, List.countP_map]
  refine List.countP_mono_left (fun r _ h => ?_)
  simp only [Function.comp_apply, Bool.and_eq_true, decide_eq_true_eq] at h ⊢
  exact ⟨(expireRow_datetime now nd r) ▸ h.1, expireRow_current now nd r h.2⟩

theorem currentRowsFor_map_expire_other {now : Nat} {nd : Record} {k : String}
    (hk : k ≠ nd.datetime) (tbl : List Row) :
    currentRowsFor k (tbl.map (expireRow now nd)) = currentRowsFor k tbl := by
  unfold currentRowsFor
  refine filter_map_of_fix _ _ tbl (fun r _ => ?_)
  by_cases hp : (decide (r.datetime = k) && r.is_current) = true
  · rw [if_pos hp]
    simp only [Bool.and_eq_true, decide_eq_true_eq] at hp
    exact expireRow_of_other_key (by rw [hp.1]; exact hk)
  · rw [if_neg hp]
    simp only [Bool.and_eq_true, decide_eq_true_eq, not_and,
      Bool.not_eq_true] at hp
    by_cases hd : r.datetime = k
    · rw [expireRow_of_other_key (show r.datetime ≠ nd.datetime by
        rw [hd]; exact hk)]
      simp [hd, hp hd]
    · simp [expireRow_datetime, hd]

theorem rowsFor_map_expire_other {now : Nat} {nd : Record} {k : String}
    (hk : k ≠ nd.datetime) (tbl : List Row) :
    rowsFor k (tbl.map (expireRow now nd)) = rowsFor k tbl := by
  unfold rowsFor
  refine filter_map_of_fix _ _ tbl (fun r _ => ?_)
  by_cases hp : decide (r.datetime = k) = true
  · rw [if_pos hp]
    simp only [decide_eq_true_eq] at hp
    exact expireRow_of_other_key (fun h => hk (hp ▸ h))
  · rw [if_neg hp]
    simpa [expireRow_datetime] using hp

/-- When the insert fires, the expire step has left no current row at
all for the incoming key. -/
theorem currentRowsFor_nil_of_no_match {now : Nat} {nd : Record} {tbl : List Row}
    (hm : ¬ ∃ r ∈ tbl.map (expireRow now nd), matchesCurrent nd r) :
    currentRowsFor nd.datetime (tbl.map (expireRow now nd)) = [] := by
  unfold currentRowsFor
  rw [List.filter_eq_nil_iff]
  intro r' hr' hp
  simp only [Bool.and_eq_true, decide_eq_true_eq] at hp
  rcases List.mem_map.mp hr' with ⟨r, hr, rfl⟩
  exact hm ⟨expireRow now nd r, List.mem_map_of_mem _ hr,
    expireRow_matches hp.1 hp.2⟩

/-! ### Claim C1: the at-most-one-current invariant -/

theorem upsert_preserves_atMostOneCurrent {now : Nat} {nd : Record}
    {tbl tbl' : List Row}
    (h : upsert_weather_scd_type2 now nd tbl = .ok tbl')
    (hinv : atMostOneCurrent tbl) : atMostOneCurrent tbl' := by
  intro k
  rcases upsert_ok_cases h with ⟨rfl, _⟩ | ⟨rfl, hno⟩
  · exact le_trans (currentRowsFor_map_expire_le now nd k tbl) (hinv k)
  · unfold currentRowsFor
    rw [List.filter_append]
    by_cases hk : k = nd.datetime
    · subst hk
      have h0 := currentRowsFor_nil_of_no_match hno
      unfold currentRowsFor at h0
      rw [h0]
      simp [newRow]
    · have := currentRowsFor_map_expire_le now nd k tbl
      unfold currentRowsFor at this
      have hnew : (List.filter (fun r => decide (r.datetime = k) && r.is_current)
          [newRow now nd]) = [] := by
        simp [newRow, Ne.symm hk]
      rw [hnew, List.append_nil]
      exact le_trans this (hinv k)

/-- When every current row for the incoming key differs from the
incoming record on some tracked field, and the transaction timestamp is
fresh for that key, the transaction commits: it expires every one of
those rows and inserts the incoming record as the single current row
for the key. -/
theorem upsert_all_differ {now : Nat} {nd : Record} {tbl : List Row}
    (hdiff : ∀ r ∈ currentRowsFor nd.datetime tbl,
      r.temperature ≠ nd.temperature ∨ r.conv_temp ≠ nd.conv_temp ∨
        r.weather_info ≠ nd.weather_info)
    (hfresh : ∀ r ∈ tbl, r.datetime = nd.datetime → r.valid_from ≠ now) :
    upsert_weather_scd_type2 now nd tbl =
        .ok (tbl.map (expireRow now nd) ++ [newRow now nd]) ∧
      currentRowsFor nd.datetime
        (tbl.map (expireRow now nd) ++ [newRow now nd]) = [newRow now nd] := by
  have hno : ¬ ∃ r ∈ tbl.map (expireRow now nd), matchesCurrent nd r := by
    rintro ⟨r', hr', hm⟩
    rcases List.mem_map.mp hr' with ⟨r, hr, rfl⟩
    have hcurr : r.is_current = true := expireRow_current now nd r hm.2.2.2.2
    have hdt : r.datetime = nd.datetime := (expireRow_datetime now nd r) ▸ hm.1
    have hmem : r ∈ currentRowsFor nd.datetime tbl :=
      List.mem_filter.mpr ⟨hr, by simp [hdt, hcurr]⟩
    rcases hdiff r hmem with h | h | h
    · exact h ((expireRow_temperature now nd r) ▸ hm.2.1)
    · exact h ((expireRow_conv_temp now nd r) ▸ hm.2.2.1)
    · exact h ((expireRow_weather_info now nd r) ▸ hm.2.2.2.1)
  have hu : ¬ ∃ r ∈ tbl.map (expireRow now nd),
      r.datetime = nd.datetime ∧ r.valid_from = now := by
    rintro ⟨r', hr', hdt, hvf⟩
    rcases List.mem_map.mp hr' with ⟨r, hr, rfl⟩
    exact hfresh r hr ((expireRow_datetime now nd r) ▸ hdt)
      ((expireRow_valid_from now nd r) ▸ hvf)
  refine ⟨upsert_eq_of_no_match hno hu, ?_⟩
  unfold currentRowsFor
  rw [List.filter_append]
  have h0 := currentRowsFor_nil_of_no_match hno
  unfold currentRowsFor at h0
  rw [h0]
  simp [newRow]

/-- Claim C3: if the store holds exactly one current row for the
incoming key and some tracked field differs, then in one transaction the
old row gets `valid_to = now, is_current = false`, every other persisted
row is untouched, and exactly one new row with the incoming values,
`valid_from = now`, `valid_to = NULL`, `is_current = true` is
inserted. -/
theorem upsert_change_detection {now : Nat} {nd : Record} {tbl : List Row}
    {r0 : Row}
    (hcur : currentRowsFor nd.datetime tbl = [r0])
    (hdiff : r0.temperature ≠ nd.temperature ∨ r0.conv_temp ≠ nd.conv_temp ∨
      r0.weather_info ≠ nd.weather_info)
    (hfresh : ∀ r ∈ tbl, r.datetime = nd.datetime → r.valid_from ≠ now) :
    upsert_weather_scd_type2 now nd tbl =
        .ok (tbl.map (expireRow now nd) ++ [newRow now nd]) ∧
      expireRow now nd r0 =
        { r0 with valid_to := some now, is_current := false } ∧
      (∀ r ∈ tbl, r ≠ r0 → expireRow now nd r = r) ∧
      newRow now nd =
        ⟨nd.datetime, nd.temperature, nd.conv_temp, nd.weather_info,
          now, none, true⟩ ∧
      (tbl.map (expireRow now nd) ++ [newRow now nd]).length = tbl.length + 1 := by
  have hdiff' : ∀ r ∈ currentRowsFor nd.datetime tbl,
      r.temperature ≠ nd.temperature ∨ r.conv_temp ≠ nd.conv_temp ∨
        r.weather_info ≠ nd.weather_info := by
    intro r hr
    rw [hcur, List.mem_singleton] at hr
    subst hr
    exact hdiff
  have hr0 : r0 ∈ currentRowsFor nd.datetime tbl := by
    rw [hcur]; exact List.mem_singleton_self r0
  have hr0p := List.mem_filter.mp hr0
  simp only [Bool.and_eq_true, decide_eq_true_eq] at hr0p
  refine ⟨(upsert_all_differ hdiff' hfresh).1, ?_, ?_, rfl, by simp⟩
  · unfold expireRow
    rw [if_pos ⟨hr0p.2.1, hr0p.2.2, hdiff⟩]
  · intro r hr hne
    refine expireRow_of_not_cond (fun hc => hne ?_)
    have : r ∈ currentRowsFor nd.datetime tbl :=
      List.mem_filter.mpr ⟨hr, by simp [hc.1, hc.2.1]⟩
    rw [hcur, List.mem_singleton] at this
    exact this

/-- Claim C4 (amended): on a store state that already violates the
invariant with several current rows for one key, all differing from the
incoming record, the upsert does not fail: it commits, expires every
duplicate current row and leaves the freshly inserted row as the only
current one. -/
theorem upsert_on_duplicate_current_proceeds {now : Nat} {nd : Record}
    {tbl : List Row}
    (_hdup : 2 ≤ (currentRowsFor nd.datetime tbl).length)
    (hdiff : ∀ r ∈ currentRowsFor nd.datetime tbl,
      r.temperature ≠ nd.temperature ∨ r.conv_temp ≠ nd.conv_temp ∨
        r.weather_info ≠ nd.weather_info)
    (hfresh : ∀ r ∈ tbl, r.datetime = nd.datetime → r.valid_from ≠ now) :
    upsert_weather_scd_type2 now nd tbl =
        .ok (tbl.map (expireRow now nd) ++ [newRow now nd]) ∧
      currentRowsFor nd.datetime
        (tbl.map (expireRow now nd) ++ [newRow now nd]) = [newRow now nd] :=
  upsert_all_differ hdiff hfresh

/-- Claim C4, as stated, is false: on a table with two current rows for
the key `2024-01-01 00:00:00`, reconciling a record for that key does
not fail with a store-integrity error; the transaction commits and
silently rewrites the history. -/
theorem upsert_no_duplicate_current_check :
    upsert_weather_scd_type2 5
      ⟨"2024-01-01 00:00:00", 3, ("Snow", "light snow"), 3⟩
      [⟨"2024-01-01 00:00:00", 1, 1, ("Clear", "clear sky"), 0, none, true⟩,
       ⟨"2024-01-01 00:00:00", 2, 2, ("Rain", "light rain"), 1, none, true⟩] =
    .ok
      [⟨"2024-01-01 00:00:00", 1, 1, ("Clear", "clear sky"), 0, some 5, false⟩,
       ⟨"2024-01-01 00:00:00", 2, 2, ("Rain", "light rain"), 1, some 5, false⟩,
       ⟨"2024-01-01 00:00:00", 3, 3, ("Snow", "light snow"), 5, none, true⟩] := by
  rfl

/-- Witness for the amended claim C4 at the same concrete input. -/
theorem upsert_on_duplicate_current_proceeds_witness :
    2 ≤ (currentRowsFor "2024-01-01 00:00:00"
      [⟨"2024-01-01 00:00:00", 1, 1, ("Clear", "clear sky"), 0, none, true⟩,
       ⟨"2024-01-01 00:00:00", 2, 2, ("Rain", "light rain"), 1, none, true⟩]).length ∧
    upsert_weather_scd_type2 5
      ⟨"2024-01-01 00:00:00", 3, ("Snow", "light snow"), 3⟩
      [⟨"2024-01-01 00:00:00", 1, 1, ("Clear", "clear sky"), 0, none, true⟩,
       ⟨"2024-01-01 00:00:00", 2, 2, ("Rain", "light rain"), 1, none, true⟩] =
    .ok
      ([⟨"2024-01-01 00:00:00", 1, 1, ("Clear", "clear sky"), 0, none, true⟩,
        ⟨"2024-01-01 00:00:00", 2, 2, ("Rain", "light rain"), 1, none, true⟩].map
          (expireRow 5 ⟨"2024-01-01 00:00:00", 3, ("Snow", "light snow"), 3⟩) ++
        [newRow 5 ⟨"2024-01-01 00:00:00", 3, ("Snow", "light snow"), 3⟩]) :=
  ⟨by decide,
    (upsert_on_duplicate_current_proceeds (by decide) (by decide) (by decide)).1⟩

/-- Witness for claim C3 at a concrete input: one current "Clear" row,
incoming "Rain" record for the same key. -/
theorem upsert_change_detection_witness :
    currentRowsFor "2024-01-01 00:00:00"
        [⟨"2024-01-01 00:00:00", 1, 1, ("Clear", "clear sky"), 0, none, true⟩] =
      [⟨"2024-01-01 00:00:00", 1, 1, ("Clear", "clear sky"), 0, none, true⟩] ∧
    upsert_weather_scd_type2 5
      ⟨"2024-01-01 00:00:00", 2, ("Rain", "light rain"), 2⟩
      [⟨"2024-01-01 00:00:00", 1, 1, ("Clear", "clear sky"), 0, none, true⟩] =
    .ok
      [⟨"2024-01-01 00:00:00", 1, 1, ("Clear", "clear sky"), 0, some 5, false⟩,
       ⟨"2024-01-01 00:00:00", 2, 2, ("Rain", "light rain"), 5, none, true⟩] := by
  refine ⟨by decide, ?_⟩
  have h := (@upsert_change_detection 5
    ⟨"2024-01-01 00:00:00", 2, ("Rain", "light rain"), 2⟩
    [⟨"2024-01-01 00:00:00", 1, 1, ("Clear", "clear sky"), 0, none, true⟩]
    ⟨"2024-01-01 00:00:00", 1, 1, ("Clear", "clear sky"), 0, none, true⟩
    (by decide) (by decide) (by decide)).1
  exact h.trans (by rfl)

/-- Claim C1: every store state reachable by a sequence of successful
`upsert_weather_scd_type2` transactions starting from the empty table
has, for every `datetime` key, at most one row with `is_current =
true`. -/
theorem reachable_atMostOneCurrent (tbl : List Row) (h : Reachable tbl) :
    atMostOneCurrent tbl := by
  unfold Reachable at h
  induction h with
  | refl => intro k; simp [currentRowsFor]
  | step _ hup ih => exact upsert_preserves_atMostOneCurrent hup ih

/-! ### Claim C2: idempotence of a batch with distinct keys -/

theorem currentRowsFor_append (k : String) (a b : List Row) :
    currentRowsFor k (a ++ b) = currentRowsFor k a ++ currentRowsFor k b :=
  List.filter_append a b

theorem rowsFor_append (k : String) (a b : List Row) :
    rowsFor k (a ++ b) = rowsFor k a ++ rowsFor k b :=
  List.filter_append a b

theorem currentRowsFor_newRow_other {now : Nat} {nd : Record} {k : String}
    (hk : k ≠ nd.datetime) : currentRowsFor k [newRow now nd] = [] := by
  simp [currentRowsFor, newRow, Ne.symm hk]

theorem rowsFor_newRow_other {now : Nat} {nd : Record} {k : String}
    (hk : k ≠ nd.datetime) : rowsFor k [newRow now nd] = [] := by
  simp [rowsFor, newRow, Ne.symm hk]

/-- A successful upsert leaves the rows of every other key untouched. -/
theorem upsert_other_key {now : Nat} {nd : Record} {tbl tbl' : List Row}
    (h : upsert_weather_scd_type2 now nd tbl = .ok tbl') {k : String}
    (hk : k ≠ nd.datetime) :
    currentRowsFor k tbl' = currentRowsFor k tbl ∧
      rowsFor k tbl' = rowsFor k tbl := by
  rcases upsert_ok_cases h with ⟨rfl, -⟩ | ⟨rfl, -⟩
  · exact ⟨currentRowsFor_map_expire_other hk tbl,
      rowsFor_map_expire_other hk tbl⟩
  · rw [currentRowsFor_append, rowsFor_append, currentRowsFor_newRow_other hk,
      rowsFor_newRow_other hk, List.append_nil, List.append_nil]
    exact ⟨currentRowsFor_map_expire_other hk tbl,
      rowsFor_map_expire_other hk tbl⟩

/-- After a successful upsert for `nd` the store is `settled` for `nd`:
it holds at least one current row for `nd`'s key, and every current row
for that key agrees with `nd` on all tracked fields. -/
def settled (nd : Record) (tbl : List Row) : Prop :=
  currentRowsFor nd.datetime tbl ≠ [] ∧
    ∀ r ∈ currentRowsFor nd.datetime tbl, matchesCurrent nd r

theorem settled_after_upsert {now : Nat} {nd : Record} {tbl tbl' : List Row}
    (h : upsert_weather_scd_type2 now nd tbl = .ok tbl') : settled nd tbl' := by
  rcases upsert_ok_cases h with ⟨rfl, ⟨r', hr', hm⟩⟩ | ⟨rfl, hno⟩
  · constructor
    · exact List.ne_nil_of_mem
        (List.mem_filter.mpr ⟨hr', by simp [hm.1, hm.2.2.2.2]⟩)
    · intro r hr
      have hp := List.mem_filter.mp hr
      simp only [Bool.and_eq_true, decide_eq_true_eq] at hp
      rcases List.mem_map.mp hp.1 with ⟨s, _, rfl⟩
      exact expireRow_matches hp.2.1 hp.2.2
  · have hsing : currentRowsFor nd.datetime
        (tbl.map (expireRow now nd) ++ [newRow now nd]) = [newRow now nd] := by
      rw [currentRowsFor_append, currentRowsFor_nil_of_no_match hno]
      simp [currentRowsFor, newRow]
    constructor
    · rw [hsing]; simp
    · intro r hr
      rw [hsing, List.mem_singleton] at hr
      subst hr
      exact ⟨rfl, rfl, rfl, rfl, rfl⟩

/-- Reconciling a record against a store already settled for it is a
complete no-op: the expire `UPDATE` touches no row and the `INSERT` is
suppressed. -/
theorem upsert_of_settled {m : Nat} {nd : Record} {tbl : List Row}
    (h : settled nd tbl) : upsert_weather_scd_type2 m nd tbl = .ok tbl := by
  have hmap : tbl.map (expireRow m nd) = tbl := by
    have hfix : ∀ r ∈ tbl, expireRow m nd r = r := by
      intro r hr
      refine expireRow_of_not_cond (fun hc => ?_)
      have hmem : r ∈ currentRowsFor nd.datetime tbl :=
        List.mem_filter.mpr ⟨hr, by simp [hc.1, hc.2.1]⟩
      have hm := h.2 r hmem
      rcases hc.2.2 with hne | hne | hne
      · exact hne hm.2.1
      · exact hne hm.2.2.1
      · exact hne hm.2.2.2.1
    calc tbl.map (expireRow m nd) = tbl.map id := List.map_congr_left hfix
      _ = tbl := List.map_id tbl
  rcases List.exists_mem_of_ne_nil _ h.1 with ⟨r0, hr0⟩
  have hex : ∃ r ∈ tbl.map (expireRow m nd), matchesCurrent nd r := by
    rw [hmap]
    exact ⟨r0, List.mem_of_mem_filter hr0, h.2 r0 hr0⟩
  have := upsert_eq_of_match hex
  rw [hmap] at this
  exact this

/-- Settledness for one key survives reconciliations of other keys. -/
theorem settled_after_runBatch {nd : Record} {B : List Record} :
    ∀ {m : Nat} {tbl tbl' : List Row}, settled nd tbl →
      (∀ r ∈ B, r.datetime ≠ nd.datetime) →
      runBatch m B tbl = .ok tbl' → settled nd tbl' := by
  induction B with
  | nil =>
      intro m tbl tbl' hs _ hrun
      simp only [runBatch] at hrun
      cases hrun
      exact hs
  | cons b rest ih =>
      intro m tbl tbl' hs hk hrun
      simp only [runBatch] at hrun
      cases hup : upsert_weather_scd_type2 m b tbl with
      | error e => rw [hup] at hrun; cases hrun
      | ok mid =>
          rw [hup] at hrun
          have hmid : settled nd mid := by
            have hpres := (upsert_other_key hup
              (Ne.symm (hk b (List.mem_cons_self b rest)))).1
            unfold settled
            rw [hpres]
            exact hs
          exact ih hmid (fun r hr => hk r (List.mem_cons_of_mem b hr)) hrun

/-- After one successful pass over a batch whose keys are pairwise
distinct, the store is settled for every record of the batch. -/
theorem runBatch_settles {B : List Record} :
    ∀ {now : Nat} {tbl s : List Row},
      (B.map (fun r => r.datetime)).Nodup →
      runBatch now B tbl = .ok s →
      ∀ r ∈ B, settled r s := by
  induction B with
  | nil => intro _ _ _ _ _ r hr; cases hr
  | cons nd rest ih =>
      intro now tbl s hnodup hrun r hr
      simp only [runBatch] at hrun
      cases hup : upsert_weather_scd_type2 now nd tbl with
      | error e => rw [hup] at hrun; cases hrun
      | ok mid =>
          rw [hup] at hrun
          simp only [List.map_cons, List.nodup_cons] at hnodup
          rcases List.mem_cons.mp hr with rfl | hr'
          · refine settled_after_runBatch (settled_after_upsert hup) ?_ hrun
            intro r' hr' heq
            exact hnodup.1
              (heq ▸ List.mem_map_of_mem (fun x => x.datetime) hr')
          · exact ih hnodup.2 hrun r hr'

/-- A batch for which the store is settled reconciles as a pure no-op,
whatever the transaction timestamps. -/
theorem runBatch_noop {B : List Record} :
    ∀ {s : List Row}, (∀ r ∈ B, settled r s) →
      ∀ m : Nat, runBatch m B s = .ok s := by
  induction B with
  | nil => intro s _ m; rfl
  | cons nd rest ih =>
      intro s hs m
      simp only [runBatch]
      rw [upsert_of_settled (hs nd (List.mem_cons_self nd rest))]
      exact ih (fun r hr => hs r (List.mem_cons_of_mem nd hr)) (m + 1)

/-- Claim C2 (amended): for a batch whose `datetime` keys are pairwise
distinct, a second run over the same batch is an exact no-op: each
per-record transaction returns the store unchanged (nothing expired,
nothing inserted) and the final state equals the state after the first
run. -/
theorem runBatch_idempotent {now0 : Nat} {B : List Record} {tbl s1 : List Row}
    (hnodup : (B.map (fun r => r.datetime)).Nodup)
    (hrun : runBatch now0 B tbl = .ok s1) :
    (∀ r ∈ B, ∀ m : Nat, upsert_weather_scd_type2 m r s1 = .ok s1) ∧
      ∀ m : Nat, runBatch m B s1 = .ok s1 := by
  have hs := runBatch_settles hnodup hrun
  exact ⟨fun r hr m => upsert_of_settled (hs r hr), runBatch_noop hs⟩

/-- Claim C2, as stated over arbitrary batches, is false: a batch that
repeats the key `2024-01-01 00:00:00` with two different values is
rewritten again by a second identical run, which expires and inserts
two more rows instead of reporting everything unchanged. -/
theorem runBatch_not_idempotent_for_duplicate_keys :
    runBatch 0
        [⟨"2024-01-01 00:00:00", 1, ("Clear", "clear sky"), 1⟩,
         ⟨"2024-01-01 00:00:00", 2, ("Rain", "light rain"), 2⟩] [] =
      .ok
        [⟨"2024-01-01 00:00:00", 1, 1, ("Clear", "clear sky"), 0, some 1, false⟩,
         ⟨"2024-01-01 00:00:00", 2, 2, ("Rain", "light rain"), 1, none, true⟩] ∧
    runBatch 2
        [⟨"2024-01-01 00:00:00", 1, ("Clear", "clear sky"), 1⟩,
         ⟨"2024-01-01 00:00:00", 2, ("Rain", "light rain"), 2⟩]
        [⟨"2024-01-01 00:00:00", 1, 1, ("Clear", "clear sky"), 0, some 1, false⟩,
         ⟨"2024-01-01 00:00:00", 2, 2, ("Rain", "light rain"), 1, none, true⟩] =
      .ok
        [⟨"2024-01-01 00:00:00", 1, 1, ("Clear", "clear sky"), 0, some 1, false⟩,
         ⟨"2024-01-01 00:00:00", 2, 2, ("Rain", "light rain"), 1, some 2, false⟩,
         ⟨"2024-01-01 00:00:00", 1, 1, ("Clear", "clear sky"), 2, some 3, false⟩,
         ⟨"2024-01-01 00:00:00", 2, 2, ("Rain", "light rain"), 3, none, true⟩] ∧
    ([⟨"2024-01-01 00:00:00", 1, 1, ("Clear", "clear sky"), 0, some 1, false⟩,
      ⟨"2024-01-01 00:00:00", 2, 2, ("Rain", "light rain"), 1, some 2, false⟩,
      ⟨"2024-01-01 00:00:00", 1, 1, ("Clear", "clear sky"), 2, some 3, false⟩,
      ⟨"2024-01-01 00:00:00", 2, 2, ("Rain", "light rain"), 3, none, true⟩] :
        List Row) ≠
      [⟨"2024-01-01 00:00:00", 1, 1, ("Clear", "clear sky"), 0, some 1, false⟩,
       ⟨"2024-01-01 00:00:00", 2, 2, ("Rain", "light rain"), 1, none, true⟩] :=
  ⟨by rfl, by rfl, by decide⟩

/-- Witness for the amended claim C2 on a concrete distinct-key batch. -/
theorem runBatch_idempotent_witness :
    (([⟨"2024-01-01 00:00:00", 1, ("Clear", "clear sky"), 1⟩] :
        List Record).map (fun r => r.datetime)).Nodup ∧
    runBatch 0 [⟨"2024-01-01 00:00:00", 1, ("Clear", "clear sky"), 1⟩] [] =
      .ok [⟨"2024-01-01 00:00:00", 1, 1, ("Clear", "clear sky"), 0, none, true⟩] ∧
    runBatch 7 [⟨"2024-01-01 00:00:00", 1, ("Clear", "clear sky"), 1⟩]
        [⟨"2024-01-01 00:00:00", 1, 1, ("Clear", "clear sky"), 0, none, true⟩] =
      .ok [⟨"2024-01-01 00:00:00", 1, 1, ("Clear", "clear sky"), 0, none, true⟩] :=
  ⟨by decide, by rfl,
    (@runBatch_idempotent 0 [⟨"2024-01-01 00:00:00", 1, ("Clear", "clear sky"), 1⟩]
      [] [⟨"2024-01-01 00:00:00", 1, 1, ("Clear", "clear sky"), 0, none, true⟩]
      (by decide) (by rfl)).2 7⟩

/-! ### Claim C5: first sighting of a key -/

theorem currentRowsFor_nil_of_rowsFor_nil {k : String} {tbl : List Row}
    (h : rowsFor k tbl = []) : currentRowsFor k tbl = [] := by
  unfold rowsFor at h
  unfold currentRowsFor
  rw [List.filter_eq_nil_iff] at h ⊢
  intro r hr hp
  simp only [Bool.and_eq_true, decide_eq_true_eq] at hp
  exact h r hr (by simp [hp.1])

theorem rowsFor_map_expire_nil {now : Nat} {nd : Record} {k : String}
    {tbl : List Row} (h : rowsFor k tbl = []) :
    rowsFor k (tbl.map (expireRow now nd)) = [] := by
  unfold rowsFor at h ⊢
  rw [List.filter_eq_nil_iff] at h ⊢
  intro r' hr'
  rcases List.mem_map.mp hr' with ⟨r, hr, rfl⟩
  simpa [expireRow_datetime] using h r hr

/-- Reconciling a key with no persisted row at all: the expire `UPDATE`
matches nothing and the `INSERT` fires, leaving exactly one row for that
key. -/
theorem upsert_first_sighting {now : Nat} {nd : Record} {tbl : List Row}
    (hno : rowsFor nd.datetime tbl = []) :
    upsert_weather_scd_type2 now nd tbl =
        .ok (tbl.map (expireRow now nd) ++ [newRow now nd]) ∧
      rowsFor nd.datetime
        (tbl.map (expireRow now nd) ++ [newRow now nd]) = [newRow now nd] := by
  have hdiff : ∀ r ∈ currentRowsFor nd.datetime tbl,
      r.temperature ≠ nd.temperature ∨ r.conv_temp ≠ nd.conv_temp ∨
        r.weather_info ≠ nd.weather_info := by
    rw [currentRowsFor_nil_of_rowsFor_nil hno]
    intro r hr
    cases hr
  have hfresh : ∀ r ∈ tbl, r.datetime = nd.datetime → r.valid_from ≠ now := by
    intro r hr hdt
    exfalso
    have : r ∈ rowsFor nd.datetime tbl :=
      List.mem_filter.mpr ⟨hr, by simp [hdt]⟩
    rw [hno] at this
    cases this
  refine ⟨(upsert_all_differ hdiff hfresh).1, ?_⟩
  rw [rowsFor_append, rowsFor_map_expire_nil hno]
  simp [rowsFor, newRow]

/-- Rows of a key untouched by any record of a batch are preserved. -/
theorem rowsFor_after_runBatch {k : String} {B : List Record} :
    ∀ {m : Nat} {tbl tbl' : List Row},
      (∀ r ∈ B, r.datetime ≠ k) →
      runBatch m B tbl = .ok tbl' → rowsFor k tbl' = rowsFor k tbl := by
  induction B with
  | nil =>
      intro m tbl tbl' _ hrun
      simp only [runBatch] at hrun
      cases hrun
      rfl
  | cons b rest ih =>
      intro m tbl tbl' hk hrun
      simp only [runBatch] at hrun
      cases hup : upsert_weather_scd_type2 m b tbl with
      | error e => rw [hup] at hrun; cases hrun
      | ok mid =>
          rw [hup] at hrun
          rw [ih (fun r hr => hk r (List.mem_cons_of_mem b hr)) hrun]
          exact (upsert_other_key hup
            (Ne.symm (hk b (List.mem_cons_self b rest)))).2

/-- Claim C5: if the store holds no row for `rec`'s key and the batch
contains `rec` as its only record for that key, a successful run leaves
exactly one row for the key: the incoming values with `is_current =
true`, `valid_to = NULL`, and `valid_from` equal to the `NOW()` of
`rec`'s transaction. -/
theorem runBatch_first_sighting {B1 B2 : List Record} {rec : Record} :
    ∀ {now0 : Nat} {tbl tbl' : List Row},
      (∀ r ∈ B1, r.datetime ≠ rec.datetime) →
      (∀ r ∈ B2, r.datetime ≠ rec.datetime) →
      rowsFor rec.datetime tbl = [] →
      runBatch now0 (B1 ++ rec :: B2) tbl = .ok tbl' →
      ∃ t : Nat, now0 ≤ t ∧
        rowsFor rec.datetime tbl' =
          [⟨rec.datetime, rec.temperature, rec.conv_temp, rec.weather_info,
            t, none, true⟩] := by
  induction B1 with
  | nil =>
      intro now0 tbl tbl' _ hB2 hno hrun
      simp only [List.nil_append, runBatch] at hrun
      cases hup : upsert_weather_scd_type2 now0 rec tbl with
      | error e => rw [hup] at hrun; cases hrun
      | ok mid =>
          rw [hup] at hrun
          obtain ⟨hok, hrows⟩ := @upsert_first_sighting now0 rec tbl hno
          rw [hup] at hok
          have hmid : mid = tbl.map (expireRow now0 rec) ++ [newRow now0 rec] :=
            (Except.ok.injEq _ _).mp hok
          subst hmid
          refine ⟨now0, le_refl now0, ?_⟩
          rw [rowsFor_after_runBatch hB2 hrun, hrows]
          rfl
  | cons b B1' ih =>
      intro now0 tbl tbl' hB1 hB2 hno hrun
      simp only [List.cons_append, runBatch] at hrun
      cases hup : upsert_weather_scd_type2 now0 b tbl with
      | error e => rw [hup] at hrun; cases hrun
      | ok mid =>
          rw [hup] at hrun
          have hno' : rowsFor rec.datetime mid = [] := by
            rw [(upsert_other_key hup
              (Ne.symm (hB1 b (List.mem_cons_self b B1')))).2]
            exact hno
          obtain ⟨t, ht, hrows⟩ :=
            ih (fun r hr => hB1 r (List.mem_cons_of_mem b hr)) hB2 hno' hrun
          exact ⟨t, le_trans (Nat.le_succ now0) ht, hrows⟩

/-- Witness for claim C5: the batch `[("2024-01-01 00:00:00", Clear)]`
against the empty store. -/
theorem runBatch_first_sighting_witness :
    rowsFor "2024-01-01 00:00:00" ([] : List Row) = [] ∧
    runBatch 0 [⟨"2024-01-01 00:00:00", 1, ("Clear", "clear sky"), 1⟩] [] =
      .ok [⟨"2024-01-01 00:00:00", 1, 1, ("Clear", "clear sky"), 0, none, true⟩] ∧
    ∃ t : Nat, 0 ≤ t ∧
      rowsFor "2024-01-01 00:00:00"
          [⟨"2024-01-01 00:00:00", 1, 1, ("Clear", "clear sky"), 0, none, true⟩] =
        [⟨"2024-01-01 00:00:00", 1, 1, ("Clear", "clear sky"), t, none, true⟩] :=
  ⟨rfl, rfl,
    @runBatch_first_sighting [] []
      ⟨"2024-01-01 00:00:00", 1, ("Clear", "clear sky"), 1⟩ 0 []
      [⟨"2024-01-01 00:00:00", 1, 1, ("Clear", "clear sky"), 0, none, true⟩]
      (fun r hr => absurd hr (List.not_mem_nil r))
      (fun r hr => absurd hr (List.not_mem_nil r)) rfl rfl⟩

/-! ### Claim C9: append-only history -/

/-- How one persisted row may evolve across reconciliations: either it
is untouched, or — only while it is current — it is expired: `valid_to`
becomes set, `is_current` becomes false, every other column is kept.  In
particular a set `valid_to` is never un-set and `is_current` never goes
back to true. -/
def rowEvolves (r r' : Row) : Prop :=
  r' = r ∨
    (r.is_current = true ∧ r'.is_current = false ∧ (∃ t, r'.valid_to = some t) ∧
      r'.datetime = r.datetime ∧ r'.temperature = r.temperature ∧
      r'.conv_temp = r.conv_temp ∧ r'.weather_info = r.weather_info ∧
      r'.valid_from = r.valid_from)

theorem rowEvolves_expire (now : Nat) (nd : Record) (r : Row) :
    rowEvolves r (expireRow now nd r) := by
  by_cases h : expireCond nd r
  · right
    unfold expireRow
    rw [if_pos h]
    exact ⟨h.2.1, rfl, ⟨now, rfl⟩, rfl, rfl, rfl, rfl, rfl⟩
  · left
    exact expireRow_of_not_cond h

theorem rowEvolves_trans {a b c : Row} (hab : rowEvolves a b)
    (hbc : rowEvolves b c) : rowEvolves a c := by
  rcases hab with rfl | hab
  · exact hbc
  · rcases hbc with rfl | hbc
    · exact Or.inr hab
    · rw [hab.2.1] at hbc
      exact Bool.noConfusion hbc.1

theorem forall₂_rowEvolves_take {l l' : List Row}
    (h : List.Forall₂ rowEvolves l l') :
    ∀ n : Nat, List.Forall₂ rowEvolves (l.take n) (l'.take n) := by
  induction h with
  | nil => intro n; simp only [List.take_nil]; exact List.Forall₂.nil
  | cons hab _ ih =>
      intro n
      cases n with
      | zero => exact List.Forall₂.nil
      | succ m =>
          simp only [List.take_succ_cons]
          exact List.Forall₂.cons hab (ih m)

theorem forall₂_rowEvolves_trans {l1 l2 l3 : List Row}
    (h12 : List.Forall₂ rowEvolves l1 l2) :
    List.Forall₂ rowEvolves l2 l3 → List.Forall₂ rowEvolves l1 l3 := by
  induction h12 generalizing l3 with
  | nil =>
      intro h23
      cases h23
      exact List.Forall₂.nil
  | cons hab _ ih =>
      intro h23
      cases h23 with
      | cons hbc h23' => exact List.Forall₂.cons (rowEvolves_trans hab hbc) (ih h23')

/-- One successful upsert never deletes a row: every pre-existing row
survives at its position, at most expired. -/
theorem upsert_append_only {now : Nat} {nd : Record} {tbl tbl' : List Row}
    (h : upsert_weather_scd_type2 now nd tbl = .ok tbl') :
    tbl.length ≤ tbl'.length ∧
      List.Forall₂ rowEvolves tbl (tbl'.take tbl.length) := by
  have hmap : List.Forall₂ rowEvolves tbl (tbl.map (expireRow now nd)) :=
    List.forall₂_map_right_iff.mpr
      (List.forall₂_same.mpr fun r _ => rowEvolves_expire now nd r)
  rcases upsert_ok_cases h with ⟨rfl, -⟩ | ⟨rfl, -⟩
  · refine ⟨le_of_eq (List.length_map _ _).symm, ?_⟩
    have htake : (tbl.map (expireRow now nd)).take tbl.length =
        tbl.map (expireRow now nd) := by
      rw [← List.length_map tbl (expireRow now nd)]
      exact List.take_length _
    rw [htake]
    exact hmap
  · constructor
    · rw [List.length_append, List.length_map]
      omega
    · have htake : (tbl.map (expireRow now nd) ++ [newRow now nd]).take tbl.length =
          tbl.map (expireRow now nd) := by
        rw [← List.length_map tbl (expireRow now nd)]
        exact List.take_left _ _
      rw [htake]
      exact hmap

/-- Claim C9: across any sequence of successful reconciliations the
history is append-only — no persisted row is ever deleted, and a row
whose `valid_to` is set (equivalently, whose `is_current` is false) is
never reverted to `valid_to = NULL` or `is_current = true`. -/
theorem evolves_append_only {tbl tbl' : List Row} (h : Evolves tbl tbl') :
    tbl.length ≤ tbl'.length ∧
      List.Forall₂ rowEvolves tbl (tbl'.take tbl.length) := by
  induction h with
  | refl =>
      refine ⟨le_refl _, ?_⟩
      rw [List.take_length]
      exact List.forall₂_same.mpr fun r _ => Or.inl rfl
  | step _ hup ih =>
      obtain ⟨hlen1, hf1⟩ := ih
      obtain ⟨hlen2, hf2⟩ := upsert_append_only hup
      refine ⟨le_trans hlen1 hlen2, ?_⟩
      have h3 := forall₂_rowEvolves_take hf2 tbl.length
      rw [List.take_take, min_eq_left hlen1] at h3
      exact forall₂_rowEvolves_trans hf1 h3

/-- Witness for claim C9: a one-row store evolved by one change-detecting
reconcile; the old row survives, merely expired. -/
theorem evolves_append_only_witness :
    Evolves
        [⟨"2024-01-01 00:00:00", 1, 1, ("Clear", "clear sky"), 0, none, true⟩]
        [⟨"2024-01-01 00:00:00", 1, 1, ("Clear", "clear sky"), 0, some 1, false⟩,
         ⟨"2024-01-01 00:00:00", 2, 2, ("Rain", "light rain"), 1, none, true⟩] ∧
      ([⟨"2024-01-01 00:00:00", 1, 1, ("Clear", "clear sky"), 0, none, true⟩] :
        List Row).length ≤
        ([⟨"2024-01-01 00:00:00", 1, 1, ("Clear", "clear sky"), 0, some 1, false⟩,
          ⟨"2024-01-01 00:00:00", 2, 2, ("Rain", "light rain"), 1, none, true⟩] :
          List Row).length ∧
      List.Forall₂ rowEvolves
        [⟨"2024-01-01 00:00:00", 1, 1, ("Clear", "clear sky"), 0, none, true⟩]
        (([⟨"2024-01-01 00:00:00", 1, 1, ("Clear", "clear sky"), 0, some 1, false⟩,
           ⟨"2024-01-01 00:00:00", 2, 2, ("Rain", "light rain"), 1, none, true⟩] :
           List Row).take 1) := by
  have hev : Evolves
      [⟨"2024-01-01 00:00:00", 1, 1, ("Clear", "clear sky"), 0, none, true⟩]
      [⟨"2024-01-01 00:00:00", 1, 1, ("Clear", "clear sky"), 0, some 1, false⟩,
       ⟨"2024-01-01 00:00:00", 2, 2, ("Rain", "light rain"), 1, none, true⟩] :=
    Evolves.step (Evolves.refl _)
      (show upsert_weather_scd_type2 1
          ⟨"2024-01-01 00:00:00", 2, ("Rain", "light rain"), 2⟩
          [⟨"2024-01-01 00:00:00", 1, 1, ("Clear", "clear sky"), 0, none, true⟩] =
        _ from rfl)
  exact ⟨hev, (evolves_append_only hev).1, (evolves_append_only hev).2⟩

/-- Witness for claim C1: a concrete one-row state reached by a single
reconcile from the empty table satisfies the invariant. -/
theorem reachable_atMostOneCurrent_witness :
    Reachable
        [⟨"2024-01-01 00:00:00", 1, 1, ("Clear", "clear sky"), 0, none, true⟩] ∧
      atMostOneCurrent
        [⟨"2024-01-01 00:00:00", 1, 1, ("Clear", "clear sky"), 0, none, true⟩] := by
  have h : Reachable
      [⟨"2024-01-01 00:00:00", 1, 1, ("Clear", "clear sky"), 0, none, true⟩] :=
    Evolves.step (Evolves.refl [])
      (show upsert_weather_scd_type2 0
          ⟨"2024-01-01 00:00:00", 1, ("Clear", "clear sky"), 1⟩ [] = _ from rfl)
  exact ⟨h, reachable_atMostOneCurrent _ h⟩

/-! ### Claim C6: temperature conversion -/

/-- Claim C6: every record produced by `parse_list` carries
`conv_temp = round(temperature - 273.15, 2)`. -/
theorem parse_list_conversion {response : List RawItem} {r : Record}
    (h : r ∈ parse_list response) :
    r.conv_temp = pyRound2 (r.temperature - 273.15) := by
  rcases List.mem_map.mp h with ⟨item, _, rfl⟩
  rfl

theorem pyRound2_seven : pyRound2 ((280.15 : ℚ) - 273.15) = 7 := by
  have h : (280.15 : ℚ) - 273.15 = 7 := by norm_num
  rw [h]
  unfold pyRound2
  norm_num

/-- Witness for claim C6: the spec's example, 280.15 K becomes 7.00 °C. -/
theorem parse_list_conversion_witness :
    ((⟨"2024-01-01 00:00:00", 280.15, ("Clear", "clear sky"), 7⟩ : Record) ∈
      parse_list [⟨"2024-01-01 00:00:00", 280.15, "Clear", "clear sky"⟩]) ∧
    (7 : ℚ) = pyRound2 ((280.15 : ℚ) - 273.15) := by
  have hmem : (⟨"2024-01-01 00:00:00", 280.15, ("Clear", "clear sky"), 7⟩ :
      Record) ∈
      parse_list [⟨"2024-01-01 00:00:00", 280.15, "Clear", "clear sky"⟩] := by
    simp only [parse_list, List.map, List.mem_singleton]
    rw [Record.mk.injEq]
    exact ⟨rfl, rfl, rfl, pyRound2_seven.symm⟩
  exact ⟨hmem, parse_list_conversion hmem⟩

/-! ### Claim C7: configuration validation -/

/-- Claim C7, as stated, is false: a configuration with the location
unset (as well as username, host, port, database name) passes validation
— only the API key and the database password are required; the missing
location silently falls back to the default `Calgary`. -/
theorem loadConfig_missing_location_ok :
    loadConfig ⟨some "key", none, none, some "pw", none, none, none⟩ =
      .ok ⟨"key", "Calgary", "postgres", "pw", "localhost", "5432", "ben"⟩ := rfl

/-- Claim C7 (amended): only `OPENWEATHER_API_KEY` and `DB_PASSWORD` are
required.  If one of them is blank the script stops at import with that
field's distinct error, before any fetch or store write (the trace is
empty); with both present, configuration loading succeeds — whatever
other values are missing. -/
theorem loadConfig_required_fields (env : Env) (w : World) :
    (isBlank env.OPENWEATHER_API_KEY = true →
      script env w =
        ([], .configError "OPENWEATHER_API_KEY environment variable is required")) ∧
    (isBlank env.OPENWEATHER_API_KEY = false →
      isBlank env.DB_PASSWORD = true →
      script env w =
        ([], .configError "DB_PASSWORD environment variable is required")) ∧
    (isBlank env.OPENWEATHER_API_KEY = false →
      isBlank env.DB_PASSWORD = false →
      ∃ cfg : Config, loadConfig env = .ok cfg) := by
  refine ⟨fun h1 => ?_, fun h1 h2 => ?_, fun h1 h2 => ?_⟩
  · simp [script, loadConfig, h1]
  · simp [script, loadConfig, h1, h2]
  · refine ⟨⟨env.OPENWEATHER_API_KEY.getD "", env.CITY.getD "Calgary",
      env.DB_USERNAME.getD "postgres", env.DB_PASSWORD.getD "",
      env.DB_HOST.getD "localhost", env.DB_PORT.getD "5432",
      env.DB_NAME.getD "ben"⟩, ?_⟩
    unfold loadConfig
    rw [h1, h2]
    simp

/-- Witness for the amended claim C7: with every variable unset the
script stops at the API-key error with an empty effect trace. -/
theorem loadConfig_required_fields_witness :
    isBlank (Env.mk none none none none none none none).OPENWEATHER_API_KEY =
      true ∧
    script ⟨none, none, none, none, none, none, none⟩ ⟨200, [], 0, none⟩ =
      ([], .configError "OPENWEATHER_API_KEY environment variable is required") :=
  ⟨rfl, (loadConfig_required_fields ⟨none, none, none, none, none, none, none⟩
    ⟨200, [], 0, none⟩).1 rfl⟩

/-! ### Claim C8: outbound network calls per run -/

theorem countGets_dbOps (records : List Record) (url : String) :
    countGets (dbOps records) url = 0 := by
  have h1 : List.count (Event.httpGet url) (records.map Event.dbUpsert) = 0 := by
    rw [List.count_eq_zero]
    intro hmem
    rcases List.mem_map.mp hmem with ⟨r, _, heq⟩
    cases heq
  simp [countGets, dbOps, List.count_cons, List.count_append, h1]

theorem countGets_take_dbOps (records : List Record) (url : String) (i : Nat) :
    countGets ((dbOps records).take i) url = 0 :=
  Nat.le_zero.mp (le_trans ((List.take_sublist i _).count_le _)
    (le_of_eq (countGets_dbOps records url)))

theorem countGets_dbStage (records : List Record) (f : Option Nat)
    (url : String) :
    countGets (dbStage (dbOps records) f).1 url = 0 := by
  cases f with
  | none => exact countGets_dbOps records url
  | some i =>
      simp only [dbStage]
      by_cases hi : i < (dbOps records).length
      · rw [if_pos hi]
        exact countGets_take_dbOps records url i
      · rw [if_neg hi]
        exact countGets_dbOps records url

/-- On a successful fetch the trace starts with the two identical GETs
and the CSV write, and nothing later in the run touches the network. -/
theorem mainRun_trace_shape (cfg : Config) (w : World)
    (h200 : w.status_code = 200) :
    ∃ rest : List Event,
      (mainRun cfg w).1 =
        [Event.httpGet (forecastUrl cfg), Event.httpGet (forecastUrl cfg),
          Event.csvWrite "weather_forecast_json.csv" (parse_list w.body) w.now]
          ++ rest ∧
      countGets rest (forecastUrl cfg) = 0 := by
  simp only [mainRun, main_request]
  rw [if_pos h200]
  exact ⟨(dbStage (dbOps (parse_list w.body)) w.dbFail).1, rfl,
    countGets_dbStage _ _ _⟩

/-- Claim C8 (amended): every run with a successful first fetch issues
exactly two GET requests to the forecast URL (the status-check request
of `main` and the duplicate request inside `main_request`); a run whose
first request fails issues exactly one. -/
theorem mainRun_fetch_calls (cfg : Config) (w : World) :
    (w.status_code = 200 →
      countGets (mainRun cfg w).1 (forecastUrl cfg) = 2) ∧
    (w.status_code ≠ 200 →
      countGets (mainRun cfg w).1 (forecastUrl cfg) = 1) := by
  constructor
  · intro h200
    obtain ⟨rest, htr, hrest⟩ := mainRun_trace_shape cfg w h200
    rw [htr]
    unfold countGets at hrest ⊢
    rw [List.count_append, hrest]
    simp [List.count_cons]
  · intro hne
    simp only [mainRun]
    rw [if_neg hne]
    simp [countGets, List.count_cons]

/-- Claim C8, as stated, is false: a concrete successful run performs
two outbound calls to the forecast endpoint, not one. -/
theorem mainRun_double_fetch_example :
    countGets
        (mainRun ⟨"k", "Calgary", "postgres", "p", "localhost", "5432", "ben"⟩
          ⟨200, [], 0, none⟩).1
        (forecastUrl
          ⟨"k", "Calgary", "postgres", "p", "localhost", "5432", "ben"⟩) = 2 ∧
    (mainRun ⟨"k", "Calgary", "postgres", "p", "localhost", "5432", "ben"⟩
        ⟨200, [], 0, none⟩).2 = RunResult.success := by
  constructor
  · rfl
  · rfl

/-- Witness for the amended claim C8: both branches at concrete runs. -/
theorem mainRun_fetch_calls_witness :
    countGets
        (mainRun ⟨"k", "Calgary", "postgres", "p", "localhost", "5432", "ben"⟩
          ⟨200, [], 0, none⟩).1
        (forecastUrl
          ⟨"k", "Calgary", "postgres", "p", "localhost", "5432", "ben"⟩) = 2 ∧
    countGets
        (mainRun ⟨"k", "Calgary", "postgres", "p", "localhost", "5432", "ben"⟩
          ⟨404, [], 0, none⟩).1
        (forecastUrl
          ⟨"k", "Calgary", "postgres", "p", "localhost", "5432", "ben"⟩) = 1 :=
  ⟨(mainRun_fetch_calls _ _).1 rfl, (mainRun_fetch_calls _ _).2 (by decide)⟩

/-! ### Claim C10: the CSV export precedes (and survives) the database
stage -/

/-- Claim C10: whenever the run ends in a database error, the full
transformed snapshot had already been written to
`weather_forecast_json.csv` — the CSV write is the third event of the
trace, before any database operation, and the trace contains no
operation that removes it. -/
theorem csv_written_before_db (cfg : Config) (w : World)
    (hdb : (mainRun cfg w).2 = RunResult.dbError) :
    (mainRun cfg w).1.take 3 =
      [Event.httpGet (forecastUrl cfg), Event.httpGet (forecastUrl cfg),
        Event.csvWrite "weather_forecast_json.csv" (parse_list w.body) w.now] ∧
    Event.csvWrite "weather_forecast_json.csv" (parse_list w.body) w.now ∈
      (mainRun cfg w).1 := by
  by_cases h200 : w.status_code = 200
  · have htr : (mainRun cfg w).1 =
        [Event.httpGet (forecastUrl cfg), Event.httpGet (forecastUrl cfg),
          Event.csvWrite "weather_forecast_json.csv" (parse_list w.body) w.now]
          ++ (dbStage (dbOps (parse_list w.body)) w.dbFail).1 := by
      simp only [mainRun, main_request]
      rw [if_pos h200]
      rfl
    rw [htr]
    exact ⟨rfl, by simp⟩

  · exfalso
    have hres : (mainRun cfg w).2 = RunResult.fetchFailed w.status_code := by
      simp only [mainRun]
      rw [if_neg h200]
    rw [hres] at hdb
    cases hdb

/-- Witness for claim C10: a run whose very first database operation
(the `CREATE TABLE`) raises still has the CSV write in its trace. -/
theorem csv_written_before_db_witness :
    (mainRun ⟨"k", "Calgary", "postgres", "p", "localhost", "5432", "ben"⟩
        ⟨200, [⟨"2024-01-01 00:00:00", 280.15, "Clear", "clear sky"⟩], 3,
          some 0⟩).2 = RunResult.dbError ∧
    (mainRun ⟨"k", "Calgary", "postgres", "p", "localhost", "5432", "ben"⟩
        ⟨200, [⟨"2024-01-01 00:00:00", 280.15, "Clear", "clear sky"⟩], 3,
          some 0⟩).1.take 3 =
      [Event.httpGet (forecastUrl
          ⟨"k", "Calgary", "postgres", "p", "localhost", "5432", "ben"⟩),
        Event.httpGet (forecastUrl
          ⟨"k", "Calgary", "postgres", "p", "localhost", "5432", "ben"⟩),
        Event.csvWrite "weather_forecast_json.csv"
          (parse_list [⟨"2024-01-01 00:00:00", 280.15, "Clear", "clear sky"⟩])
          3] :=
  ⟨rfl, (csv_written_before_db
    ⟨"k", "Calgary", "postgres", "p", "localhost", "5432", "ben"⟩
    ⟨200, [⟨"2024-01-01 00:00:00", 280.15, "Clear", "clear sky"⟩], 3, some 0⟩
    rfl).1⟩

end WeatherPipeline
